import Mathlib

/-!
Verification of the embedding/reranking HTTP service in `embed/app.py`.

The service exposes `/embed` and `/rerank`. Reranking dispatches to one of two
inference backends selected once at startup: an exported ONNX graph (when the
optional runtime is importable and export/load succeeds) or the native
`CrossEncoder`. The ONNX path normalizes the raw output tensor into one score
per document by dispatching on its shape.

The embedding below mirrors the module: numpy tensors are a shape plus a
row-major flat buffer; the ML runtime, the tokenizer and the models are
external collaborators, modelled as function-valued records; a Python
exception that the handler does not catch is an `Except.error`; the module
globals (`use_onnx`, `reranker_onnx`, `reranker_tokenizer`, `reranker`)
form the `AppState` record, and the handler — which contains no assignment
to any of them — is given in state-passing form so that invariants across a
sequence of requests can be stated. Score values are an arbitrary type `α`
because the handler only selects and reorders them, never computes with them.
-/

namespace EmbedApp

variable {α : Type}

/-- A Python exception that escapes the handler (the handler catches nothing,
so each of these propagates to the transport layer as a server error). -/
inductive PyError where
  /-- numpy `IndexError` from `output_tensor[:, j]` when `j` is not below the
  trailing dimension (in this code that arises only with trailing dimension 0). -/
  | indexOutOfBounds
  /-- `outputs[0]` on an empty output list from the runtime session. -/
  | noOutputs
  /-- `AttributeError`: `reranker.predict` with `reranker = None`. -/
  | noneHasNoPredict
deriving DecidableEq

/-- Which of the two interchangeable inference backends a request used. -/
inductive BackendKind where
  | onnx
  | native
deriving DecidableEq

/-- A numpy `ndarray`: its shape and its row-major flat buffer. -/
structure Tensor (α : Type) where
  shape : List Nat
  data : List α
deriving DecidableEq

/-- A real `ndarray` has as many elements as the product of its dimensions. -/
def Tensor.wf (t : Tensor α) : Prop :=
  t.data.length = t.shape.prod

/-- The numpy column slice `a[:, j]` of a rank-2 array of shape `[b, k]`
stored row-major: element `i` is `data[i * k + j]`. Callers guard `j < k`
(numpy raises `IndexError` otherwise — see `normalizeScores`); the `getD`
default is never reached on a well-formed array. -/
def colSlice [Inhabited α] (data : List α) (b k j : Nat) : List α :=
  (List.range b).map fun i => data.getD (i * k + j) default

/-- Lines 224–244 of `rerank` in `embed/app.py`: map the raw output tensor to
per-document scores by shape dispatch, with `n` the document count. Returns
the scores paired with whether the diagnostic warning was printed.
  * rank 1: iterate the tensor — its elements, unchanged;
  * rank 2, trailing dim 1: `output_tensor[:, 0]`;
  * rank 2, trailing dim 2: `output_tensor[:, 1]` (positive-class logit);
  * rank 2, other trailing dim: warn, `output_tensor[:, 0]` — which raises
    numpy `IndexError` when the trailing dim is 0;
  * any other rank: warn, `output_tensor.flatten()[:n]`. -/
def normalizeScores [Inhabited α] (t : Tensor α) (n : Nat) :
    Except PyError (List α × Bool) :=
  match t.shape with
  | [_] => .ok (t.data, false)
  | [b, k] =>
    if k = 1 then .ok (colSlice t.data b k 0, false)
    else if k = 2 then .ok (colSlice t.data b k 1, false)
    else if 0 < k then .ok (colSlice t.data b k 0, true)
    else .error .indexOutOfBounds
  | _ => .ok (t.data.take n, true)

/-- The batched tokenizer output: parallel per-pair token-id rows and the
optional attention-mask rows (`inputs["input_ids"]`, `inputs.get("attention_mask")`). -/
structure TokenBatch where
  input_ids : List (List Int)
  attention_mask : Option (List (List Int))

/-- The feed dict handed to `reranker_onnx.run`: each key present only when
built in (lines 210–214). -/
structure OnnxInputs where
  input_ids : Option (List (List Int))
  attention_mask : Option (List (List Int))

/-- The reranker tokenizer (external collaborator): batch-encodes parallel
lists of queries and documents, truncating and padding internally. -/
structure Tokenizer where
  encode : List String → List String → TokenBatch

/-- An `onnxruntime.InferenceSession` (external collaborator): its declared
input names (`get_inputs()`) and its `run`, returning the output tensors. -/
structure OnnxSession (α : Type) where
  inputNames : List String
  run : OnnxInputs → List (Tensor α)

/-- A `sentence_transformers.CrossEncoder` (external collaborator): `predict`
on (query, document) pairs returns per-pair scores directly. -/
structure CrossEncoderModel (α : Type) where
  predict : List (String × String) → List α

/-- A `SentenceTransformer` embedding model (external collaborator). -/
structure EmbeddingModel (α : Type) where
  encode : List String → List (List α)

/-- Lines 210–214: build the ONNX feed dict. `input_ids` is included when the
model declares that input; `attention_mask` when both the model declares it
and the tokenizer produced one. -/
def buildOnnxInputs (input_names : List String) (inputs : TokenBatch) : OnnxInputs where
  input_ids := if "input_ids" ∈ input_names then some inputs.input_ids else none
  attention_mask :=
    if "attention_mask" ∈ input_names ∧ inputs.attention_mask.isSome then
      inputs.attention_mask
    else none

/-- The module globals that hold the backend selection:
`use_onnx`, `reranker_onnx`, `reranker_tokenizer`, `reranker`. -/
structure AppState (α : Type) where
  use_onnx : Bool
  reranker_onnx : Option (OnnxSession α)
  reranker_tokenizer : Option Tokenizer
  reranker : Option (CrossEncoderModel α)

/-- Line 249: `pairs = [[request.query, doc] for doc in request.documents]`. -/
def pairsFor (q : String) (documents : List String) : List (String × String) :=
  documents.map fun d => (q, d)

/-- Lines 197–214 of the ONNX branch: replicate the query alongside the
documents, batch-tokenize, and build the feed dict from the session's
declared input names. -/
def onnxInputsFor (sess : OnnxSession α) (tok : Tokenizer) (q : String)
    (documents : List String) : OnnxInputs :=
  buildOnnxInputs sess.inputNames
    (tok.encode (List.replicate documents.length q) documents)

/-- One handled `/rerank` request: the response (or the escaped exception),
plus which side effects happened — whether the tokenizer was invoked, whether
the inference backend (session `run` or `CrossEncoder.predict`) was invoked,
and which backend variant the control flow entered. -/
structure RerankResult (α : Type) where
  response : Except PyError (List α)
  tokenizerCalled : Bool
  inferenceCalled : Bool
  backendUsed : Option BackendKind

/-- Lines 185–251, the `/rerank` handler. Empty `documents` short-circuits to
empty scores before any tokenization or inference. Otherwise the branch on
`use_onnx and reranker_onnx is not None and reranker_tokenizer is not None`
selects the ONNX path (tokenize, run, normalize by shape) and anything else
falls to the native path (`reranker.predict`, which crashes on `None`). -/
def rerank [Inhabited α] (st : AppState α) (query : String)
    (documents : List String) : RerankResult α :=
  if documents = [] then
    { response := .ok [], tokenizerCalled := false, inferenceCalled := false,
      backendUsed := none }
  else
    match st.use_onnx, st.reranker_onnx, st.reranker_tokenizer with
    | true, some sess, some tok =>
      match (sess.run (onnxInputsFor sess tok query documents)).head? with
      | none =>
        { response := .error .noOutputs, tokenizerCalled := true,
          inferenceCalled := true, backendUsed := some .onnx }
      | some output_tensor =>
        { response := (normalizeScores output_tensor documents.length).map Prod.fst,
          tokenizerCalled := true, inferenceCalled := true,
          backendUsed := some .onnx }
    | _, _, _ =>
      match st.reranker with
      | some ce =>
        { response := .ok (ce.predict (pairsFor query documents)),
          tokenizerCalled := false, inferenceCalled := true,
          backendUsed := some .native }
      | none =>
        { response := .error .noneHasNoPredict, tokenizerCalled := false,
          inferenceCalled := false, backendUsed := some .native }

/-- Lines 179–182, the `/embed` handler: `model.encode(request.texts).tolist()`,
no branching of any kind. -/
def embed (m : EmbeddingModel α) (texts : List String) : List (List α) :=
  m.encode texts

/-- The startup environment `initialize_onnx_reranker` runs in (external
effects): whether `onnxruntime` imported; whether the construction attempt
(load-existing or export-then-load) ran to completion, and with which session
and tokenizer; and, when the attempt raised partway, the values the globals
`reranker_onnx` / `reranker_tokenizer` were left holding (assignments before
the raise survive it). -/
structure InitEnv (α : Type) where
  onnx_available : Bool
  outcome : Option (OnnxSession α × Tokenizer)
  leftover_onnx : Option (OnnxSession α)
  leftover_tok : Option Tokenizer

/-- Lines 28–142, `initialize_onnx_reranker`: returns False at once when the
optional runtime is missing; otherwise both construction paths end with the
session and tokenizer globals set and return True, and any exception is
caught, logged, and turned into False (with whatever partial global
assignments had already happened). Result: (return value, `reranker_onnx`,
`reranker_tokenizer`). -/
def initialize_onnx_reranker (env : InitEnv α) :
    Bool × Option (OnnxSession α) × Option Tokenizer :=
  if env.onnx_available = false then (false, none, none)
  else
    match env.outcome with
    | some (sess, tok) => (true, some sess, some tok)
    | none => (false, env.leftover_onnx, env.leftover_tok)

/-- Lines 144–155, the module startup: run the initializer once; on False
construct the native `CrossEncoder` (`ce`, an external collaborator), on True
set `reranker = None`. -/
def startup (env : InitEnv α) (ce : CrossEncoderModel α) : AppState α :=
  let r := initialize_onnx_reranker env
  if r.1 = false then
    { use_onnx := r.1, reranker_onnx := r.2.1, reranker_tokenizer := r.2.2,
      reranker := some ce }
  else
    { use_onnx := r.1, reranker_onnx := r.2.1, reranker_tokenizer := r.2.2,
      reranker := none }

/-- The backend variant the handler's branch condition selects for a given
state (the condition of line 190, which reads only the globals). -/
def backendOf (st : AppState α) : BackendKind :=
  match st.use_onnx, st.reranker_onnx, st.reranker_tokenizer with
  | true, some _, some _ => .onnx
  | _, _, _ => .native

/-- One request in state-passing form. The handler body assigns none of the
module globals, so the state it returns is the state it was given. -/
def rerankStep [Inhabited α] (st : AppState α) (req : String × List String) :
    AppState α × RerankResult α :=
  (st, rerank st req.1 req.2)

/-- A sequence of `/rerank` requests served in order, threading the module
state through. -/
def handleAll [Inhabited α] (st : AppState α) :
    List (String × List String) → AppState α × List (RerankResult α)
  | [] => (st, [])
  | req :: reqs =>
    let p := rerankStep st req
    let rest := handleAll p.1 reqs
    (rest.1, p.2 :: rest.2)

/-- The exported graph's output contract for a batch of `n` documents, as
declared at export time (`"logits": {0: "batch_size"}`): a well-formed tensor
whose leading axis is the batch, of rank 1 or rank 2 with a nonempty
classification head. -/
def goodLogits (t : Tensor α) (n : Nat) : Prop :=
  t.wf ∧ (t.shape = [n] ∨ ∃ k, t.shape = [n, k] ∧ 1 ≤ k)

/-! Concrete instances used to evaluate the theorems below on closed inputs. -/

/-- A concrete tokenizer: one token row per query and a mask row per document. -/
def tokW : Tokenizer :=
  ⟨fun qs ds => ⟨qs.map fun _ => [101], some (ds.map fun _ => [1])⟩⟩

/-- A concrete session returning one rank-2 `(1, 2)` logits tensor. -/
def sessW : OnnxSession Int :=
  ⟨["input_ids", "attention_mask"], fun _ => [⟨[1, 2], [10, 20]⟩]⟩

/-- A concrete native cross-encoder scoring every pair 7. -/
def ceW : CrossEncoderModel Int :=
  ⟨fun ps => ps.map fun _ => 7⟩

/-- A concrete embedding model: one fixed 2-vector per text. -/
def embW : EmbeddingModel Int :=
  ⟨fun ts => ts.map fun _ => [0, 1]⟩

/-- A state with the exported-graph backend active. -/
def stOnnxW : AppState Int :=
  ⟨true, some sessW, some tokW, none⟩

/-- A state with the native backend active. -/
def stNativeW : AppState Int :=
  ⟨false, none, none, some ceW⟩

/-- An environment where the runtime imported but construction raised at once. -/
def envFailW : InitEnv Int :=
  ⟨true, none, none, none⟩

/-! Helper lemmas. -/

theorem length_colSlice [Inhabited α] (data : List α) (b k j : Nat) :
    (colSlice data b k j).length = b := by
  simp [colSlice]

/-- The flat-index column slice of a rank-2 array agrees with picking entry
`j` of every row, when the rows all have width `k` and `j < k`. -/
theorem colSlice_flatten [Inhabited α] (k j : Nat) (hj : j < k) :
    ∀ rows : List (List α), (∀ r ∈ rows, r.length = k) →
      colSlice rows.flatten rows.length k j = rows.map fun r => r.getD j default := by
  intro rows
  induction rows with
  | nil => intro _; simp [colSlice]
  | cons r rs ih =>
    intro hlen
    have hr : r.length = k := hlen r (List.mem_cons_self r rs)
    have hrs : ∀ x ∈ rs, x.length = k := fun x hx => hlen x (List.mem_cons_of_mem r hx)
    have hhead : (r ++ rs.flatten).getD (0 * k + j) default = r.getD j default := by
      rw [Nat.zero_mul, Nat.zero_add]
      exact List.getD_append r rs.flatten default j (hr ▸ hj)
    have htail : ∀ i : Nat,
        (r ++ rs.flatten).getD (Nat.succ i * k + j) default
          = rs.flatten.getD (i * k + j) default := by
      intro i
      have h1 : Nat.succ i * k + j = r.length + (i * k + j) := by
        rw [hr, Nat.succ_mul]; omega
      rw [h1, List.getD_append_right r rs.flatten default _ (Nat.le_add_right _ _)]
      simp
    calc colSlice (r :: rs).flatten (r :: rs).length k j
        = (r ++ rs.flatten).getD (0 * k + j) default ::
            (List.range rs.length).map
              (fun i => (r ++ rs.flatten).getD (Nat.succ i * k + j) default) := by
          simp [colSlice, List.range_succ_eq_map, Function.comp]
      _ = r.getD j default ::
            (List.range rs.length).map
              (fun i => rs.flatten.getD (i * k + j) default) := by
          rw [hhead]
          exact congrArg _ (List.map_congr_left fun i _ => htail i)
      _ = r.getD j default :: colSlice rs.flatten rs.length k j := rfl
      _ = (r :: rs).map (fun x => x.getD j default) := by
          rw [ih hrs]; rfl

/-- Under the exported graph's output contract, normalization succeeds and
yields one score per document. -/
theorem normalizeScores_length [Inhabited α] (t : Tensor α) (n : Nat)
    (hg : goodLogits t n) :
    ∃ s w, normalizeScores t n = .ok (s, w) ∧ s.length = n := by
  obtain ⟨hwf, hsh⟩ := hg
  rcases hsh with h | ⟨k, hk, hk1⟩
  · refine ⟨t.data, false, by simp [normalizeScores, h], ?_⟩
    rw [Tensor.wf, h] at hwf
    simpa using hwf
  · by_cases e1 : k = 1
    · subst e1
      exact ⟨colSlice t.data n 1 0, false, by simp [normalizeScores, hk],
        length_colSlice ..⟩
    · by_cases e2 : k = 2
      · subst e2
        exact ⟨colSlice t.data n 2 1, false, by simp [normalizeScores, hk],
          length_colSlice ..⟩
      · have e3 : 0 < k := hk1
        exact ⟨colSlice t.data n k 0, true,
          by simp [normalizeScores, hk, e1, e2, e3], length_colSlice ..⟩

/-- Shape normalization can only raise the numpy `IndexError`; in particular
it never raises the `None`-dereference error of the native branch. -/
theorem normalizeScores_ne_nonePredict [Inhabited α] (t : Tensor α) (n : Nat) :
    normalizeScores t n ≠ .error .noneHasNoPredict := by
  obtain ⟨sh, d⟩ := t
  rcases sh with _ | ⟨b, _ | ⟨k, _ | ⟨c, rest⟩⟩⟩
  · simp [normalizeScores]
  · simp [normalizeScores]
  · by_cases e1 : k = 1 <;> by_cases e2 : k = 2 <;> by_cases e3 : 0 < k <;>
      simp [normalizeScores, e1, e2, e3]
  · simp [normalizeScores]

/-- The handler in the ONNX branch: with the branch condition satisfied and
the session returning at least one output, the response is the normalized
first output. -/
theorem rerank_of_onnx [Inhabited α] (st : AppState α) (q : String)
    (documents : List String) (hne : documents ≠ [])
    (sess : OnnxSession α) (tok : Tokenizer)
    (hu : st.use_onnx = true) (ho : st.reranker_onnx = some sess)
    (ht : st.reranker_tokenizer = some tok)
    (t : Tensor α) (rest : List (Tensor α))
    (hrun : sess.run (onnxInputsFor sess tok q documents) = t :: rest) :
    rerank st q documents =
      { response := (normalizeScores t documents.length).map Prod.fst,
        tokenizerCalled := true, inferenceCalled := true,
        backendUsed := some .onnx } := by
  obtain ⟨u, ro, rt, rr⟩ := st
  dsimp at hu ho ht
  subst hu; subst ho; subst ht
  simp [rerank, hne, hrun]

/-- The handler in the native branch: when the branch condition of line 190
fails and the native cross-encoder is present, the response is its `predict`
on the (query, document) pairs. -/
theorem rerank_of_native [Inhabited α] (st : AppState α) (q : String)
    (documents : List String) (hne : documents ≠ [])
    (hb : backendOf st = .native) (ce : CrossEncoderModel α)
    (hce : st.reranker = some ce) :
    rerank st q documents =
      { response := .ok (ce.predict (pairsFor q documents)),
        tokenizerCalled := false, inferenceCalled := true,
        backendUsed := some .native } := by
  obtain ⟨u, ro, rt, rr⟩ := st
  dsimp at hce
  subst hce
  cases u <;> rcases ro with _ | sess <;> rcases rt with _ | tok <;>
    simp_all [rerank, backendOf, hne]

/-- Whichever variant a request enters, it is the one the state selects. -/
theorem backendUsed_eq_backendOf [Inhabited α] (st : AppState α) (q : String)
    (documents : List String) (b : BackendKind)
    (h : (rerank st q documents).backendUsed = some b) : b = backendOf st := by
  obtain ⟨u, ro, rt, rr⟩ := st
  by_cases hne : documents = []
  · subst hne; simp [rerank] at h
  · cases u <;> rcases ro with _ | sess <;> rcases rt with _ | tok <;>
      rcases rr with _ | ce <;>
      simp_all [rerank, backendOf, hne] <;>
      rcases hhead : (sess.run (onnxInputsFor sess tok q documents)).head? with _ | t <;>
      simp_all

/-- Serving a request list never changes the module state. -/
theorem handleAll_fst [Inhabited α] (st : AppState α)
    (reqs : List (String × List String)) : (handleAll st reqs).1 = st := by
  induction reqs with
  | nil => rfl
  | cons req reqs ih => simpa [handleAll, rerankStep] using ih

/-- Each request in a served list is answered exactly as it would be against
the startup state. -/
theorem handleAll_snd [Inhabited α] (st : AppState α)
    (reqs : List (String × List String)) :
    (handleAll st reqs).2 = reqs.map fun r => rerank st r.1 r.2 := by
  induction reqs with
  | nil => rfl
  | cons req reqs ih => simpa [handleAll, rerankStep] using ih

/-- One pair per document. -/
theorem length_pairsFor (q : String) (documents : List String) :
    (pairsFor q documents).length = documents.length := by
  simp [pairsFor]

/-- A state with `use_onnx = False` always selects the native branch,
whatever the leftover session or tokenizer handles hold. -/
theorem backendOf_of_use_onnx_false (st : AppState α) (h : st.use_onnx = false) :
    backendOf st = .native := by
  obtain ⟨u, ro, rt, rr⟩ := st
  dsimp at h
  subst h
  rcases ro with _ | s <;> rcases rt with _ | t <;> rfl

/-- When every state reaching the native branch holds a cross-encoder, no
request can raise the `None.predict` error. -/
theorem rerank_response_ne_nonePredict [Inhabited α] (st : AppState α)
    (h : backendOf st = .native → st.reranker.isSome)
    (q : String) (documents : List String) :
    (rerank st q documents).response ≠ .error .noneHasNoPredict := by
  by_cases hne : documents = []
  · subst hne; simp [rerank]
  · by_cases hb : backendOf st = .onnx
    · obtain ⟨u, ro, rt, rr⟩ := st
      cases u <;> rcases ro with _ | sess <;> rcases rt with _ | tok <;>
        simp [backendOf] at hb
      rcases hhead : (sess.run (onnxInputsFor sess tok q documents)).head? with _ | t
      · simp [rerank, hne, hhead]
      · rcases heq : normalizeScores t documents.length with e | p
        · simp [rerank, hne, hhead, heq, Except.map]
          rintro rfl
          exact normalizeScores_ne_nonePredict t documents.length heq
        · simp [rerank, hne, hhead, heq, Except.map]
    · have hb' : backendOf st = .native := by
        cases hx : backendOf st
        · exact absurd hx hb
        · rfl
      obtain ⟨ce, hce⟩ := Option.isSome_iff_exists.mp (h hb')
      rw [rerank_of_native st q documents hne hb' ce hce]
      simp

/-! The claims. -/

/-- C3: a rank-2 output of shape (N, 2) yields exactly the N column-1 entries
(the positive-class logits) in row order, and a rank-2 output of shape (N, 1)
exactly the N column-0 entries in row order, with no diagnostic warning. -/
theorem normalizeScores_rank2 [Inhabited α] (rows2 rows1 : List (List α))
    (h2 : ∀ r ∈ rows2, r.length = 2) (h1 : ∀ r ∈ rows1, r.length = 1) :
    normalizeScores ⟨[rows2.length, 2], rows2.flatten⟩ rows2.length
        = .ok (rows2.map (fun r => r.getD 1 default), false)
      ∧ normalizeScores ⟨[rows1.length, 1], rows1.flatten⟩ rows1.length
        = .ok (rows1.map (fun r => r.getD 0 default), false) := by
  constructor
  · have hcol := colSlice_flatten 2 1 (by omega) rows2 h2
    simp [normalizeScores, hcol]
  · have hcol := colSlice_flatten 1 0 (by omega) rows1 h1
    simp [normalizeScores, hcol]

/-- Witness for C3 at N = 2: tensor (2, 2) of rows [1, 2] and [3, 4] gives
column 1 = [2, 4]; tensor (1, 1) of row [5] gives column 0 = [5]. -/
theorem normalizeScores_rank2_witness :
    normalizeScores (⟨[2, 2], [1, 2, 3, 4]⟩ : Tensor Int) 2
        = .ok ([2, 4], false)
      ∧ normalizeScores (⟨[1, 1], [5]⟩ : Tensor Int) 1
        = .ok ([5], false) := by
  have h := normalizeScores_rank2 ([[1, 2], [3, 4]] : List (List Int)) [[5]]
    (by decide) (by decide)
  simpa using h

/-- C4: a rank-1 output of length N is returned unchanged and in order — the
score list is the tensor's own element list, so element i scores document i —
with no diagnostic warning. -/
theorem normalizeScores_rank1 [Inhabited α] (t : Tensor α) (n : Nat)
    (hs : t.shape = [n]) (_hw : t.data.length = n) :
    normalizeScores t n = .ok (t.data, false) := by
  simp [normalizeScores, hs]

/-- Witness for C4 at N = 3: the rank-1 tensor [7, 8, 9] is returned as is. -/
theorem normalizeScores_rank1_witness :
    normalizeScores (⟨[3], [7, 8, 9]⟩ : Tensor Int) 3 = .ok ([7, 8, 9], false) :=
  normalizeScores_rank1 ⟨[3], [7, 8, 9]⟩ 3 rfl rfl

/-- C5 fails as stated: for the rank-2 shape (2, 0) — trailing dimension
0 ∉ {1, 2} — the fallback `output_tensor[:, 0]` raises a numpy `IndexError`
(column 0 of a width-0 array), where the claim says the normalizer does not
raise. -/
theorem normalizeScores_rank2_zero_width_raises :
    normalizeScores (⟨[2, 0], []⟩ : Tensor Int) 2 = .error .indexOutOfBounds := rfl

/-- C5 amended: for a rank-2 (N, k) output with k ∉ {1, 2} the normalizer
warns and, provided k ≥ 1, returns exactly the N column-0 entries without
raising (k = 0 raises `IndexError` instead); for a rank ≥ 3 output it warns,
never raises, and returns the first N elements of the flattened tensor —
exactly N scores provided the tensor holds at least N elements. -/
theorem normalizeScores_unexpected_shape [Inhabited α]
    (rows : List (List α)) (k : Nat) (hk : ∀ r ∈ rows, r.length = k)
    (hk1 : k ≠ 1) (hk2 : k ≠ 2) (hkpos : 1 ≤ k)
    (u : Tensor α) (n : Nat) (hu : 3 ≤ u.shape.length) (hn : n ≤ u.data.length) :
    (normalizeScores ⟨[rows.length, k], rows.flatten⟩ rows.length
        = .ok (rows.map (fun r => r.getD 0 default), true)
      ∧ (rows.map (fun r => r.getD 0 default)).length = rows.length)
    ∧ normalizeScores u n = .ok (u.data.take n, true)
      ∧ (u.data.take n).length = n := by
  refine ⟨⟨?_, by simp⟩, ?_, ?_⟩
  · have hcol := colSlice_flatten k 0 (by omega) rows hk
    simp [normalizeScores, hk1, hk2, show 0 < k by omega, hcol]
  · obtain ⟨sh, d⟩ := u
    rcases sh with _ | ⟨a, _ | ⟨b, _ | ⟨c, rest⟩⟩⟩ <;> simp_all [normalizeScores]
  · simp [List.length_take]
    omega

/-- Witness for C5 amended at N = 1: shape (1, 3) warns and takes column 0;
shape (1, 1, 1) warns and takes the first flattened element. -/
theorem normalizeScores_unexpected_shape_witness :
    (normalizeScores (⟨[1, 3], [9, 8, 7]⟩ : Tensor Int) 1 = .ok ([9], true)
      ∧ ([9] : List Int).length = 1)
    ∧ normalizeScores (⟨[1, 1, 1], [4]⟩ : Tensor Int) 1
        = .ok (([4] : List Int).take 1, true)
      ∧ (([4] : List Int).take 1).length = 1 := by
  have h := normalizeScores_unexpected_shape ([[9, 8, 7]] : List (List Int)) 3
    (by decide) (by decide) (by decide) (by decide)
    ⟨[1, 1, 1], [4]⟩ 1 (by decide) (by decide)
  simpa using h

/-- C1: for every rerank request with N ≥ 1 documents the handler returns
exactly N scores, one per document in input order, whichever backend is
active — given the exported graph's output contract (a well-formed tensor
with leading batch axis N) on the ONNX side and `predict`'s
one-score-per-pair contract on the native side. -/
theorem rerank_returns_one_score_per_document [Inhabited α] (st : AppState α)
    (q : String) (documents : List String) (hne : documents ≠ [])
    (honnx : ∀ sess tok, st.use_onnx = true → st.reranker_onnx = some sess →
      st.reranker_tokenizer = some tok →
      ∃ t rest, sess.run (onnxInputsFor sess tok q documents) = t :: rest ∧
        goodLogits t documents.length)
    (hnative : backendOf st = .native →
      ∃ ce, st.reranker = some ce ∧
        (ce.predict (pairsFor q documents)).length = documents.length) :
    ∃ scores, (rerank st q documents).response = .ok scores ∧
      scores.length = documents.length := by
  by_cases hb : backendOf st = .onnx
  · obtain ⟨u, ro, rt, rr⟩ := st
    cases u <;> rcases ro with _ | sess <;> rcases rt with _ | tok <;>
      simp [backendOf] at hb
    obtain ⟨t, rest, hrun, hg⟩ := honnx sess tok rfl rfl rfl
    obtain ⟨s, w, hnorm, hlen⟩ := normalizeScores_length t documents.length hg
    refine ⟨s, ?_, hlen⟩
    rw [rerank_of_onnx _ q documents hne sess tok rfl rfl rfl t rest hrun]
    simp [hnorm, Except.map]
  · have hb' : backendOf st = .native := by
      cases hx : backendOf st
      · exact absurd hx hb
      · rfl
    obtain ⟨ce, hce, hlen⟩ := hnative hb'
    refine ⟨ce.predict (pairsFor q documents), ?_, hlen⟩
    rw [rerank_of_native st q documents hne hb' ce hce]

/-- Witness for C1 with the exported-graph backend active and one document:
the concrete session returns a (1, 2) logits tensor and one score comes back. -/
theorem rerank_returns_one_score_per_document_witness :
    ∃ scores, (rerank stOnnxW "q" ["d"]).response = .ok scores ∧
      scores.length = 1 := by
  have h := rerank_returns_one_score_per_document stOnnxW "q" ["d"]
    (by simp)
    (by
      intro sess tok _ ho ht
      simp only [stOnnxW, Option.some.injEq] at ho ht
      subst ho; subst ht
      exact ⟨⟨[1, 2], [10, 20]⟩, [], rfl, ⟨rfl, Or.inr ⟨2, rfl, by omega⟩⟩⟩)
    (by intro hbad; simp [backendOf, stOnnxW] at hbad)
  simpa using h

/-- C2: a rerank request with empty documents returns the empty score list
and invokes neither the tokenizer nor any inference backend — this holds for
every state, including ones where every backend handle is absent. -/
theorem rerank_empty_documents [Inhabited α] (st : AppState α) (q : String) :
    rerank st q [] =
      { response := .ok [], tokenizerCalled := false, inferenceCalled := false,
        backendUsed := none } := rfl

/-- C6: when exported-graph construction fails — the optional runtime missing
or the attempt raising — the initializer reports False, startup leaves
`use_onnx` false and activates the constructed native cross-encoder, and
every subsequent rerank call succeeds with one score per document (given
`predict`'s one-score-per-pair contract). -/
theorem fallback_to_native_on_failure [Inhabited α] (env : InitEnv α)
    (ce : CrossEncoderModel α)
    (hfail : env.onnx_available = false ∨ env.outcome = none)
    (hpred : ∀ ps, (ce.predict ps).length = ps.length) :
    (initialize_onnx_reranker env).1 = false
    ∧ (startup env ce).use_onnx = false
    ∧ (startup env ce).reranker = some ce
    ∧ ∀ q documents, ∃ scores,
        (rerank (startup env ce) q documents).response = .ok scores
        ∧ scores.length = documents.length := by
  have hinit : (initialize_onnx_reranker env).1 = false := by
    obtain ⟨avail, outc, lo, lt⟩ := env
    rcases hfail with h | h
    · dsimp at h
      subst h
      rfl
    · dsimp at h
      subst h
      cases avail <;> rfl
  have hstart : startup env ce
      = { use_onnx := false,
          reranker_onnx := (initialize_onnx_reranker env).2.1,
          reranker_tokenizer := (initialize_onnx_reranker env).2.2,
          reranker := some ce } := by
    simp [startup, hinit]
  refine ⟨hinit, by rw [hstart], by rw [hstart], ?_⟩
  intro q documents
  by_cases hne : documents = []
  · subst hne
    exact ⟨[], rfl, rfl⟩
  · have hb : backendOf (startup env ce) = .native :=
      backendOf_of_use_onnx_false _ (by rw [hstart])
    rw [rerank_of_native (startup env ce) q documents hne hb ce (by rw [hstart])]
    exact ⟨ce.predict (pairsFor q documents), rfl,
      (hpred (pairsFor q documents)).trans (length_pairsFor q documents)⟩

/-- Witness for C6: an environment where the runtime imported but the
construction attempt raised at once falls back to the native backend. -/
theorem fallback_to_native_on_failure_witness :
    (initialize_onnx_reranker envFailW).1 = false
    ∧ (startup envFailW ceW).use_onnx = false
    ∧ (startup envFailW ceW).reranker = some ceW
    ∧ ∀ q documents, ∃ scores,
        (rerank (startup envFailW ceW) q documents).response = .ok scores
        ∧ scores.length = documents.length :=
  fallback_to_native_on_failure envFailW ceW (Or.inr rfl)
    (fun ps => by simp [ceW])

/-- C7: the backend selection is immutable after startup: serving any request
sequence leaves the module state exactly as it began, every request is
answered against that same state, and every request that enters a backend
enters the variant the state selects — there is no per-request re-selection. -/
theorem backend_selection_immutable [Inhabited α] (st : AppState α)
    (reqs : List (String × List String)) :
    (handleAll st reqs).1 = st
    ∧ (handleAll st reqs).2 = reqs.map (fun r => rerank st r.1 r.2)
    ∧ ∀ res ∈ (handleAll st reqs).2, ∀ b, res.backendUsed = some b →
        b = backendOf st := by
  refine ⟨handleAll_fst st reqs, handleAll_snd st reqs, ?_⟩
  intro res hres b hb
  rw [handleAll_snd] at hres
  obtain ⟨req, _, rfl⟩ := List.mem_map.mp hres
  exact backendUsed_eq_backendOf st req.1 req.2 b hb

/-- C8: the embed handler returns one vector per input text in input order
with no special-casing anywhere: an empty text list yields an empty embedding
list, both inherited directly from the model's one-vector-per-text contract. -/
theorem embed_one_vector_per_text (m : EmbeddingModel α) (texts : List String)
    (hlen : ∀ ts, (m.encode ts).length = ts.length) :
    (embed m texts).length = texts.length ∧ embed m [] = [] := by
  refine ⟨hlen texts, List.eq_nil_of_length_eq_zero ?_⟩
  simpa [embed] using hlen []

/-- Witness for C8 on two texts against a concrete embedding model. -/
theorem embed_one_vector_per_text_witness :
    (embed embW ["a", "b"]).length = (["a", "b"] : List String).length
    ∧ embed embW [] = [] :=
  embed_one_vector_per_text embW ["a", "b"] (fun ts => by simp [embW, embed])

/-- C9: two rerank calls with identical query and documents, served one after
the other, return identical results: the first call leaves the state intact
and the handler is a deterministic function of state and request (the
backends are modelled as functions — deterministic, non-training inference). -/
theorem rerank_idempotent [Inhabited α] (st : AppState α) (q : String)
    (documents : List String) :
    ∃ r, (handleAll st [(q, documents), (q, documents)]).2 = [r, r] :=
  ⟨rerank st q documents, by simp [handleAll, rerankStep]⟩

/-- C10: after startup exactly the selected backend's handles are populated:
with `use_onnx` true the session and tokenizer are present and the native
handle is `None` (but that branch is never taken); with it false the native
cross-encoder is present — so no request can ever raise the `None.predict`
dereference error. -/
theorem startup_no_none_dereference [Inhabited α] (env : InitEnv α)
    (ce : CrossEncoderModel α) :
    ((startup env ce).use_onnx = true →
        (startup env ce).reranker_onnx.isSome
        ∧ (startup env ce).reranker_tokenizer.isSome
        ∧ (startup env ce).reranker = none)
    ∧ ((startup env ce).use_onnx = false → (startup env ce).reranker = some ce)
    ∧ ∀ q documents,
        (rerank (startup env ce) q documents).response
          ≠ .error .noneHasNoPredict := by
  obtain ⟨avail, outc, lo, lt⟩ := env
  rcases avail with _ | _
  · have hst : startup (⟨false, outc, lo, lt⟩ : InitEnv α) ce
        = ⟨false, none, none, some ce⟩ := rfl
    rw [hst]
    exact ⟨by simp, fun _ => rfl, fun q documents =>
      rerank_response_ne_nonePredict ⟨false, none, none, some ce⟩
        (fun _ => rfl) q documents⟩
  · rcases outc with _ | ⟨sess, tok⟩
    · have hst : startup (⟨true, none, lo, lt⟩ : InitEnv α) ce
          = ⟨false, lo, lt, some ce⟩ := rfl
      rw [hst]
      exact ⟨by simp, fun _ => rfl, fun q documents =>
        rerank_response_ne_nonePredict ⟨false, lo, lt, some ce⟩
          (fun _ => rfl) q documents⟩
    · have hst : startup (⟨true, some (sess, tok), lo, lt⟩ : InitEnv α) ce
          = ⟨true, some sess, some tok, none⟩ := rfl
      rw [hst]
      refine ⟨fun _ => ⟨rfl, rfl, rfl⟩, by simp, fun q documents => ?_⟩
      refine rerank_response_ne_nonePredict _ ?_ q documents
      intro hbad
      simp [backendOf] at hbad

end EmbedApp
